import Mathlib

/-!
Shallow embedding of the knowledge-graph core of the repository:
`src/backend/graph_model.py` (entity store, feedback engine, persistence),
`src/backend/builder.py` (transcript builder) and the graph endpoints of
`src/backend/app.py` (session build, QA resolution, answer update, feedback).

Python floats are modelled exactly: feedback counters only ever hold whole
numbers and are integers here; an edge confidence is either a rational
literal or the symbolic value `sigmoid (3 * score)` written by the feedback
engine, and the real number it denotes is given by `ConfVal.val`.  Python
`time.time()` is passed in as a rational parameter and `uuid4()` as a
supply of fresh id strings.
-/

deriving instance DecidableEq for Except

namespace NemaGraph

/-- Substring test on character lists, the model of the Python `in`
operator on strings (`needle in hay`). -/
def containsSub : List Char → List Char → Bool
  | [], needle => needle.isEmpty
  | c :: t, needle => needle.isPrefixOf (c :: t) || containsSub t needle

/-- Python `needle in hay` for strings. -/
def strContains (hay needle : String) : Bool :=
  containsSub hay.data needle.data

/-- Python `s.lower()`. -/
def lowerStr (s : String) : String :=
  String.mk (s.data.map Char.toLower)

/-- Python `s.strip()`: drop whitespace from both ends. -/
def trimStr (s : String) : String :=
  String.mk (((s.data.dropWhile Char.isWhitespace).reverse.dropWhile Char.isWhitespace).reverse)

/-- Python `s[:n]`. -/
def takeStr (s : String) (n : ℕ) : String :=
  String.mk (s.data.take n)

/-- Python `text.strip().lower()`, the normalization used by every
find-or-create lookup in `graph_model.py`. -/
def normText (s : String) : String :=
  lowerStr (trimStr s)

/-- Replace the first element satisfying `p` (the in-place mutation of the
object found by a Python key lookup). -/
def updateFirst (p : α → Bool) (f : α → α) : List α → List α
  | [] => []
  | a :: as => if p a then f a :: as else a :: updateFirst p f as

/-- The counter triple `{"pos": float, "neg": float, "views": float}` used
both for node `stats` and for the `"feedback"` entry of edge metadata; the
counters only ever hold whole numbers. -/
structure FbStats where
  pos : ℤ
  neg : ℤ
  views : ℤ
  deriving DecidableEq, Repr

/-- The zero-initialized counters `{"pos": 0.0, "neg": 0.0, "views": 0.0}`. -/
def FbStats.zero : FbStats := ⟨0, 0, 0⟩

/-- A value stored in a metadata mapping: a float, a string, or the
feedback counter dictionary. -/
inductive MetaValue where
  | num (q : ℚ)
  | str (s : String)
  | fb (st : FbStats)
  deriving DecidableEq, Repr

/-- A Python dict used as open metadata, as an insertion-ordered
association list. -/
abbrev Metadata := List (String × MetaValue)

/-- Python `m[k]` lookup returning `none` when the key is absent. -/
def metaLookup (m : Metadata) (k : String) : Option MetaValue :=
  (m.find? (fun p => p.1 == k)).map (fun p => p.2)

/-- Python `m[k] = v`: replace the binding in place when the key exists,
append it otherwise. -/
def metaSet (m : Metadata) (k : String) (v : MetaValue) : Metadata :=
  if (m.find? (fun p => p.1 == k)).isSome then
    updateFirst (fun p => p.1 == k) (fun p => (p.1, v)) m
  else m ++ [(k, v)]

/-- The exact value of a float confidence: either a literal written by the
builders (0.5, 0.3, ...) or `sigmoid (3 * score)` written by
`apply_edge_feedback`.  `ConfVal.val` gives the denoted real number. -/
inductive ConfVal where
  | lit (q : ℚ)
  | sig (score : ℚ)
  deriving DecidableEq, Repr

/-- The float 0.5 used as the default weight and confidence. -/
def half : ℚ := mkRat 1 2

/-- The `Node` dataclass of `graph_model.py`. -/
structure Node where
  id : String
  type : String
  label : String
  text : String
  intent_id : Option String := none
  metadata : Metadata := []
  stats : FbStats := FbStats.zero
  deriving DecidableEq, Repr

/-- The `Edge` dataclass of `graph_model.py`. -/
structure Edge where
  id : String
  source : String
  target : String
  type : String
  weight : ℚ := half
  confidence : ConfVal := .lit half
  metadata : Metadata := []
  deriving DecidableEq, Repr

/-- The `MemoryGraph` dataclass: its two dicts keyed by id, modelled as
insertion-ordered lists (Python dict iteration is insertion order; the
unique-key property of the dicts is carried as a hypothesis where it
matters). -/
structure MemoryGraph where
  nodes : List Node := []
  edges : List Edge := []
  deriving DecidableEq, Repr

/-- The node keys of the store. -/
def nodeIds (g : MemoryGraph) : List String :=
  g.nodes.map (fun n => n.id)

/-- The edge keys of the store. -/
def edgeIds (g : MemoryGraph) : List String :=
  g.edges.map (fun e => e.id)

/-- `MemoryGraph.add_node`: insert only if the id is unseen, otherwise
return the existing node unchanged. -/
def MemoryGraph.add_node (g : MemoryGraph) (node : Node) : Node × MemoryGraph :=
  match g.nodes.find? (fun n => n.id == node.id) with
  | some existing => (existing, g)
  | none => (node, { g with nodes := g.nodes ++ [node] })

/-- `MemoryGraph.add_edge`: same id-based idempotence rule. -/
def MemoryGraph.add_edge (g : MemoryGraph) (edge : Edge) : Edge × MemoryGraph :=
  match g.edges.find? (fun e => e.id == edge.id) with
  | some existing => (existing, g)
  | none => (edge, { g with edges := g.edges ++ [edge] })

/-- `MemoryGraph.find_or_create_question`: linear scan over the nodes for a
`question` with the same normalized text, else create a node whose label is
the first 60 characters of the text.  `newId` is the `uuid4()` the create
path would draw and `now` the `time.time()` value. -/
def MemoryGraph.find_or_create_question (g : MemoryGraph) (text : String)
    (intent_id : Option String) (newId : String) (now : ℚ) : Node × MemoryGraph :=
  match g.nodes.find? (fun n => n.type == "question" && normText n.text == normText text) with
  | some n => (n, g)
  | none =>
      g.add_node
        { id := newId, type := "question", label := takeStr text 60, text := text,
          intent_id := intent_id, metadata := [("created_at", .num now)] }

/-- `MemoryGraph.find_or_create_answer`: same rule keyed on `answer` nodes. -/
def MemoryGraph.find_or_create_answer (g : MemoryGraph) (text : String)
    (intent_id : Option String) (newId : String) (now : ℚ) : Node × MemoryGraph :=
  match g.nodes.find? (fun n => n.type == "answer" && normText n.text == normText text) with
  | some n => (n, g)
  | none =>
      g.add_node
        { id := newId, type := "answer", label := takeStr text 60, text := text,
          intent_id := intent_id, metadata := [("created_at", .num now)] }

/-- `MemoryGraph.find_or_create_clue`: dedup keyed on the label of `clue`
nodes (the source calls topics "clues"). -/
def MemoryGraph.find_or_create_clue (g : MemoryGraph) (label : String)
    (intent_id : Option String) (newId : String) (now : ℚ) : Node × MemoryGraph :=
  match g.nodes.find? (fun n => n.type == "clue" && normText n.label == normText label) with
  | some n => (n, g)
  | none =>
      g.add_node
        { id := newId, type := "clue", label := takeStr label 60, text := label,
          intent_id := intent_id, metadata := [("created_at", .num now)] }

/-- `MemoryGraph.find_or_create_action`: dedup keyed on the label of
`action` nodes; text is `description or label`. -/
def MemoryGraph.find_or_create_action (g : MemoryGraph) (label : String)
    (description : String) (intent_id : Option String) (newId : String) (now : ℚ) :
    Node × MemoryGraph :=
  match g.nodes.find? (fun n => n.type == "action" && normText n.label == normText label) with
  | some n => (n, g)
  | none =>
      g.add_node
        { id := newId, type := "action", label := takeStr label 60,
          text := if description = "" then label else description,
          intent_id := intent_id, metadata := [("created_at", .num now)] }

/-- The Python exceptions the embedded operations can raise. -/
inductive PyErr where
  | keyError (k : String)
  | typeError
  | attributeError (attr : String)
  deriving DecidableEq, Repr

/-- `edge.metadata.setdefault("feedback", {"pos": 0.0, "neg": 0.0, "views": 0.0})`:
insert the zero counters when the key is absent, return the stored triple
when present, and fail like the subsequent `stats["pos"] += 1.0` would when
the stored value is not a counter dictionary. -/
def fbSetdefault (m : Metadata) : Except PyErr (FbStats × Metadata) :=
  match metaLookup m "feedback" with
  | none => .ok (FbStats.zero, m ++ [("feedback", .fb FbStats.zero)])
  | some (.fb st) => .ok (st, m)
  | some _ => .error .typeError

/-- `MemoryGraph.apply_edge_feedback`: look the edge up (a missing id is a
`KeyError`, raised before any mutation), bump the pos or neg counter and the
view counter inside the metadata, and set
`confidence = 1 / (1 + exp(-3 * score))` with
`score = (pos - neg) / max(1, views)` (`mkRat` over the integer counters is
that exact rational). -/
def MemoryGraph.apply_edge_feedback (g : MemoryGraph) (edge_id : String) (value : Int) :
    Except PyErr MemoryGraph :=
  match g.edges.find? (fun e => e.id == edge_id) with
  | none => .error (.keyError edge_id)
  | some edge =>
    match fbSetdefault edge.metadata with
    | .error e => .error e
    | .ok (st, m1) =>
      let st1 : FbStats :=
        if 0 < value then { st with pos := st.pos + 1 } else { st with neg := st.neg + 1 }
      let st2 : FbStats := { st1 with views := st1.views + 1 }
      let score : ℚ := mkRat (st2.pos - st2.neg) (max 1 st2.views).toNat
      let edge1 : Edge :=
        { edge with metadata := metaSet m1 "feedback" (.fb st2), confidence := .sig score }
      .ok { g with edges := updateFirst (fun e => e.id == edge_id) (fun _ => edge1) g.edges }

/-- The `/api/graph/feedback` endpoint: it calls `apply_edge_feedback` with
no exception handler, so a `KeyError` propagates to the caller as a failed
request and the global store keeps its previous state (the lookup happens
before any mutation). -/
def post_feedback (g : MemoryGraph) (edge_id : String) (value : Int) :
    MemoryGraph × Except PyErr Unit :=
  match g.apply_edge_feedback edge_id value with
  | .ok g1 => (g1, .ok ())
  | .error e => (g, .error e)

/-- The `/api/graph/update-answer` endpoint: look up the edge, then the
target node of the edge, reject an empty replacement, and overwrite the
target node text and label in place.  The error strings are the `error`
fields of the JSON responses. -/
def update_answer (g : MemoryGraph) (edge_id : String) (new_answer : String) :
    MemoryGraph × Except String Unit :=
  match g.edges.find? (fun e => e.id == edge_id) with
  | none => (g, .error "edge not found")
  | some edge =>
    match g.nodes.find? (fun n => n.id == edge.target) with
    | none => (g, .error "answer node not found")
    | some _ =>
      let new_text := trimStr new_answer
      if new_text = "" then (g, .error "empty answer")
      else
        (⟨updateFirst (fun n => n.id == edge.target)
            (fun n => { n with text := new_text, label := takeStr new_text 60 }) g.nodes,
          g.edges⟩, .ok ())

/-- `infer_Clue_from_question` of `app.py`: the fixed priority list of
substring checks over the lowercased question text. -/
def infer_Clue_from_question (q_text : String) : String :=
  let q := lowerStr q_text
  if strContains q "delivery" || strContains q "ship" || strContains q "shipping" then
    "Delivery & shipping"
  else if strContains q "price" || strContains q "cost" || strContains q "discount" then
    "Pricing & discounts"
  else if strContains q "refund" || strContains q "return" || strContains q "warranty" then
    "Refunds & warranty"
  else if strContains q "custom" || strContains q "bespoke" then
    "Custom orders"
  else "General offering"

/-- One transcript turn (`{"role": ..., "text": ...}`). -/
structure Turn where
  role : String
  text : String
  deriving DecidableEq, Repr

/-- The attribute names the `MemoryGraph` class of `graph_model.py`
defines: its two fields and its seven methods.  A Python attribute access
on a `MemoryGraph` object resolves against this set and raises
`AttributeError` on anything else. -/
def memoryGraphAttrs : List String :=
  ["nodes", "edges", "add_node", "find_or_create_question", "find_or_create_answer",
   "find_or_create_clue", "find_or_create_action", "add_edge", "apply_edge_feedback"]

/-- The loop of `build_session_graph` (`app.py`), parametrized by the
attribute set `attrs` the dynamic lookup `GRAPH.find_or_create_Clue`
resolves against: on a customer turn find-or-create a question and make it
pending; on an agent turn with a pending question find-or-create the
answer, add the `answers` edge, then access the attribute
`find_or_create_Clue` — when it resolves, create the inferred clue node and
the `describes_context` edge and clear the pending slot, otherwise the
`AttributeError` aborts the request with the mutations made so far kept in
the global store (carried on the error). -/
def build_session_graph_go (attrs : List String) (intent : String) (ids : ℕ → String)
    (now : ℚ) : MemoryGraph → Option Node → ℕ → List Turn →
    Except (PyErr × MemoryGraph) MemoryGraph
  | g, _, _, [] => .ok g
  | g, pending, k, t :: rest =>
    let text := trimStr t.text
    if text = "" then build_session_graph_go attrs intent ids now g pending k rest
    else if t.role = "customer" then
      let res := g.find_or_create_question text intent (ids k) now
      build_session_graph_go attrs intent ids now res.2 (some res.1) (k+1) rest
    else if t.role = "agent" then
      match pending with
      | none => build_session_graph_go attrs intent ids now g pending k rest
      | some q =>
        let ares := g.find_or_create_answer text intent (ids k) now
        let qa_edge : Edge :=
          { id := ids (k+1), source := q.id, target := ares.1.id, type := "answers",
            weight := half, confidence := .lit half,
            metadata := [("created_at", .num now), ("intent_id", .str intent),
                         ("source", .str "customer_session")] }
        let g2 := (ares.2.add_edge qa_edge).2
        if attrs.contains "find_or_create_Clue" then
          let cres := g2.find_or_create_clue (infer_Clue_from_question q.text) intent
            (ids (k+2)) now
          let cq_edge : Edge :=
            { id := ids (k+3), source := cres.1.id, target := q.id, type := "describes_context",
              weight := half, confidence := .lit half,
              metadata := [("created_at", .num now), ("intent_id", .str intent),
                           ("source", .str "customer_session")] }
          build_session_graph_go attrs intent ids now (cres.2.add_edge cq_edge).2 none (k+4) rest
        else .error (.attributeError "find_or_create_Clue", g2)
    else build_session_graph_go attrs intent ids now g pending k rest

/-- The `/api/sessions/.../build-graph` endpoint as shipped: the loop run
against the actual attribute set of `MemoryGraph`. -/
def build_session_graph (intent : String) (ids : ℕ → String) (now : ℚ)
    (g : MemoryGraph) (transcript : List Turn) : Except (PyErr × MemoryGraph) MemoryGraph :=
  build_session_graph_go memoryGraphAttrs intent ids now g none 0 transcript

/-- The loop of `build_graph_from_session` (`builder.py`): customer turns
are tagged `"user"` here, and the agent branch only creates the answer node
and the `answers` edge (no topic inference in this file). -/
def build_graph_from_session_go (intent : String) (ids : ℕ → String) (now : ℚ) :
    MemoryGraph → Option Node → ℕ → List Turn → MemoryGraph
  | g, _, _, [] => g
  | g, pending, k, t :: rest =>
    let text := trimStr t.text
    if text = "" then build_graph_from_session_go intent ids now g pending k rest
    else if t.role = "user" then
      let res := g.find_or_create_question text intent (ids k) now
      build_graph_from_session_go intent ids now res.2 (some res.1) (k+1) rest
    else if t.role = "agent" then
      match pending with
      | none => build_graph_from_session_go intent ids now g pending k rest
      | some q =>
        let ares := g.find_or_create_answer text intent (ids k) now
        let edge : Edge :=
          { id := ids (k+1), source := q.id, target := ares.1.id, type := "answers",
            weight := half, confidence := .lit half,
            metadata := [("created_at", .num now), ("intent_id", .str intent)] }
        build_graph_from_session_go intent ids now ((ares.2.add_edge edge).2) none (k+2) rest
    else build_graph_from_session_go intent ids now g pending k rest

/-- `build_graph_from_session` of `builder.py`. -/
def build_graph_from_session (intent : String) (ids : ℕ → String) (now : ℚ)
    (g : MemoryGraph) (transcript : List Turn) : MemoryGraph :=
  build_graph_from_session_go intent ids now g none 0 transcript

/-- One suggested follow-up action of a QA response. -/
structure QAAction where
  id : String
  label : String
  description : Option String := none
  deriving DecidableEq, Repr

/-- The `QAResponse` model of `app.py`. -/
structure QAResponse where
  matched_question_id : Option String
  matched_question : Option String
  answer : Option String
  confidence : ConfVal
  actions : List QAAction
  reason : Option String := none
  deriving DecidableEq, Repr

/-- The action record built from an action node:
`label = action_node.label or action_node.text`, description is the node
text. -/
def qaActionOf (n : Node) : QAAction :=
  { id := n.id, label := if n.label = "" then n.text else n.label, description := some n.text }

/-- A soft failure of the resolver before a question node was matched. -/
def qaFail (reason : String) : QAResponse :=
  { matched_question_id := none, matched_question := none, answer := none,
    confidence := .lit 0, actions := [], reason := some reason }

/-- The `/api/graph/qa-answer` endpoint.  The external router
`route_to_graph_question` is passed in as an oracle; a falsy routing result
(none or the empty string) means no match.  Every branch returns a normal
`QAResponse`; no branch raises. -/
def qa_answer (g : MemoryGraph) (route : String → Option String) (question : String) :
    QAResponse :=
  let user_q := trimStr question
  if user_q = "" then qaFail "Empty question"
  else
    match route user_q with
    | none => qaFail "No matching question in graph"
    | some best_qid =>
      if best_qid = "" then qaFail "No matching question in graph"
      else
        match g.nodes.find? (fun n => n.id == best_qid) with
        | none => qaFail "No matching question node"
        | some q_node =>
          match g.edges.find? (fun e => e.type == "answers" && e.source == q_node.id) with
          | none =>
            { matched_question_id := some q_node.id, matched_question := some q_node.text,
              answer := none, confidence := .lit 0, actions := [],
              reason := some "Question has no answer node" }
          | some answer_edge =>
            match g.nodes.find? (fun n => n.id == answer_edge.target) with
            | none =>
              { matched_question_id := some q_node.id, matched_question := some q_node.text,
                answer := none, confidence := .lit 0, actions := [],
                reason := some "Answer node missing" }
            | some a_node =>
              { matched_question_id := some q_node.id, matched_question := some q_node.text,
                answer := some a_node.text, confidence := answer_edge.confidence,
                actions :=
                  (g.edges.filter
                      (fun e => e.type == "next_step" && e.source == a_node.id)).filterMap
                    (fun e => (g.nodes.find? (fun n => n.id == e.target)).map qaActionOf),
                reason := none }

/-- A serialized node record (`asdict(n)`); `metadata` and `stats` are
optional because a record read back from disk may lack them. -/
structure NodeRec where
  id : String
  type : String
  label : String
  text : String
  intent_id : Option String
  metadata : Option Metadata
  stats : Option FbStats
  deriving DecidableEq, Repr

/-- A serialized edge record (`asdict(e)`). -/
structure EdgeRec where
  id : String
  source : String
  target : String
  type : String
  weight : ℚ
  confidence : ConfVal
  metadata : Option Metadata
  deriving DecidableEq, Repr

/-- The persisted document: two ordered collections. -/
structure Snapshot where
  nodes : List NodeRec
  edges : List EdgeRec
  deriving DecidableEq, Repr

/-- `asdict` of a node: every field present. -/
def nodeToRec (n : Node) : NodeRec :=
  { id := n.id, type := n.type, label := n.label, text := n.text, intent_id := n.intent_id,
    metadata := some n.metadata, stats := some n.stats }

/-- `asdict` of an edge: every field present. -/
def edgeToRec (e : Edge) : EdgeRec :=
  { id := e.id, source := e.source, target := e.target, type := e.type, weight := e.weight,
    confidence := e.confidence, metadata := some e.metadata }

/-- `save_graph`: serialize the store in iteration order. -/
def save_graph (g : MemoryGraph) : Snapshot :=
  ⟨g.nodes.map nodeToRec, g.edges.map edgeToRec⟩

/-- `Node(**nd)` after `nd.setdefault("metadata", {})` and
`nd.setdefault("stats", {zeroes})`. -/
def recToNode (r : NodeRec) : Node :=
  { id := r.id, type := r.type, label := r.label, text := r.text, intent_id := r.intent_id,
    metadata := r.metadata.getD [], stats := r.stats.getD FbStats.zero }

/-- `Edge(**ed)` after `ed.setdefault("metadata", {})`. -/
def recToEdge (r : EdgeRec) : Edge :=
  { id := r.id, source := r.source, target := r.target, type := r.type, weight := r.weight,
    confidence := r.confidence, metadata := r.metadata.getD [] }

/-- `load_graph`: rebuild an empty store through `add_node` and `add_edge`
in record order. -/
def load_graph (s : Snapshot) : MemoryGraph :=
  let g1 := s.nodes.foldl (fun g r => (g.add_node (recToNode r)).2) ⟨[], []⟩
  s.edges.foldl (fun g r => (g.add_edge (recToEdge r)).2) g1

/-- The logistic function `1 / (1 + e^(-x))`. -/
noncomputable def sigmoid (x : ℝ) : ℝ :=
  1 / (1 + Real.exp (-x))

/-- The real number a stored confidence denotes. -/
noncomputable def ConfVal.val : ConfVal → ℝ
  | .lit q => (q : ℝ)
  | .sig s => sigmoid (3 * (s : ℝ))

/-- A deterministic model of the `uuid4()` supply: pairwise distinct
strings that concrete scenarios draw their ids from. -/
def uid (n : ℕ) : String :=
  String.mk (List.replicate (n + 1) 'u')

/-- The store an aborted `build_session_graph` request leaves behind (the
partial mutations carried on the error), or the final store on success. -/
def exceptGraph : Except (PyErr × MemoryGraph) MemoryGraph → MemoryGraph
  | .ok g => g
  | .error (_, g) => g

/-- The store of a successful feedback call (the empty store as a dummy on
failure, used only to name concrete successful results). -/
def okGraphD : Except PyErr MemoryGraph → MemoryGraph
  | .ok g => g
  | .error _ => ⟨[], []⟩

/-- Number of edges of a given type in the store. -/
def countEdges (g : MemoryGraph) (ty : String) : ℕ :=
  (g.edges.filter (fun e => e.type == ty)).length

/-- Number of nodes of a given type in the store. -/
def countNodes (g : MemoryGraph) (ty : String) : ℕ :=
  (g.nodes.filter (fun n => n.type == ty)).length

/-- Number of edges incident to a node id. -/
def edgesTouching (g : MemoryGraph) (nid : String) : ℕ :=
  (g.edges.filter (fun e => e.source == nid || e.target == nid)).length

/-- The stored confidence of the edge with the given id. -/
def graphEdgeConf (g : MemoryGraph) (i : String) : Option ConfVal :=
  (g.edges.find? (fun e => e.id == i)).map (fun e => e.confidence)

/-- A soft resolver failure: no answer, zero confidence, no actions, and
the given reason string. -/
def qaSoftFail (r : QAResponse) (reason : String) : Prop :=
  r.answer = none ∧ r.confidence = .lit 0 ∧ r.actions = [] ∧ r.reason = some reason

/-- The counters after one feedback of `value`: pos or neg bumped, views
bumped. -/
def bumpStats (st : FbStats) (value : Int) : FbStats :=
  if 0 < value then ⟨st.pos + 1, st.neg, st.views + 1⟩ else ⟨st.pos, st.neg + 1, st.views + 1⟩

/-- `n` successive `+1` feedback calls on one edge, stopping at the first
failure. -/
def applyPlusN (i : String) : ℕ → MemoryGraph → Except PyErr MemoryGraph
  | 0, g => .ok g
  | n + 1, g =>
    match g.apply_edge_feedback i 1 with
    | .ok g1 => applyPlusN i n g1
    | .error e => .error e

/-- The edge state after `k` successive `+1` feedback calls on an edge `e`
whose metadata (with the zero counters inserted by the first call) is
`m1`. -/
def plusEdge (e : Edge) (m1 : Metadata) (k : ℕ) : Edge :=
  { e with metadata := metaSet m1 "feedback" (.fb ⟨(k : ℤ), 0, (k : ℤ)⟩),
           confidence := .sig (mkRat (k : ℤ) (max 1 (k : ℤ)).toNat) }

/-- The transcript of the spec scenario: an answered hours question and a
trailing unanswered one. -/
def c1Transcript : List Turn :=
  [⟨"customer", "What are your hours?"⟩, ⟨"agent", "9 to 5"⟩, ⟨"customer", "Unanswered?"⟩]

/-- Building the scenario transcript on an empty store, as the shipped code
does. -/
def c1Run : Except (PyErr × MemoryGraph) MemoryGraph :=
  build_session_graph "sales-agent" uid 0 ⟨[], []⟩ c1Transcript

/-- The same build with an attribute set on which the access
`find_or_create_Clue` resolves: the behaviour the surrounding code
(`infer_Clue_from_question`, `find_or_create_clue`) was written for. -/
def c1FixedRun : Except (PyErr × MemoryGraph) MemoryGraph :=
  build_session_graph_go (memoryGraphAttrs ++ ["find_or_create_Clue"]) "sales-agent" uid 0
    ⟨[], []⟩ none 0 c1Transcript

/-- The stored feedback counters of the edge with the given id. -/
def graphEdgeFb (g : MemoryGraph) (i : String) : Option MetaValue :=
  (g.edges.find? (fun e => e.id == i)).bind (fun e => metaLookup e.metadata "feedback")

/-- A fresh `answers` edge with no feedback yet. -/
def fbE : Edge := { id := "e1", source := "q1", target := "a1", type := "answers" }

/-- A store holding a single fresh `answers` edge, for concrete feedback
sequences. -/
def fbGraph : MemoryGraph := ⟨[], [fbE]⟩

/-- `fbGraph` after one `+1` feedback. -/
def fbGraph1 : MemoryGraph := okGraphD (fbGraph.apply_edge_feedback "e1" 1)

/-- `fbGraph1` after a further `+1` feedback. -/
def fbGraph2 : MemoryGraph := okGraphD (fbGraph1.apply_edge_feedback "e1" 1)

/-- `fbGraph1` after a `-1` feedback instead. -/
def fbGraphDown : MemoryGraph := okGraphD (fbGraph1.apply_edge_feedback "e1" (-1))

/-- A store where the first `answers` edge of the question dangles while a
second one has an existing target. -/
def c5Graph : MemoryGraph :=
  ⟨[{ id := "q1", type := "question", label := "Do you ship?", text := "Do you ship?" },
    { id := "a1", type := "answer", label := "Yes", text := "Yes" }],
   [{ id := "e1", source := "q1", target := "ghost", type := "answers" },
    { id := "e2", source := "q1", target := "a1", type := "answers" }]⟩

/-- A store with a `describes_context` edge from a clue to a question, the
input on which the answer-correction endpoint rewrites a question node. -/
def c9Graph : MemoryGraph :=
  ⟨[{ id := "c1", type := "clue", label := "General offering", text := "General offering" },
    { id := "q1", type := "question", label := "What are your hours?",
      text := "What are your hours?" }],
   [{ id := "ed1", source := "c1", target := "q1", type := "describes_context" }]⟩

/-- The builder scenario where the first question is overwritten by a
second one before any agent answer. -/
def c10Run : MemoryGraph :=
  build_graph_from_session "sales-agent" uid 0 ⟨[], []⟩
    [⟨"user", "First unanswered?"⟩, ⟨"user", "Second?"⟩, ⟨"agent", "Answer."⟩]

/-- A store exercising the resolver success path: one question, its
answer, one valid `next_step` edge and one dangling `next_step` edge. -/
def c5WitGraph : MemoryGraph :=
  ⟨[{ id := "q1", type := "question", label := "Do you ship?", text := "Do you ship?" },
    { id := "a1", type := "answer", label := "Yes", text := "Yes" },
    { id := "act1", type := "action", label := "Take order", text := "Collect details." }],
   [{ id := "e1", source := "q1", target := "a1", type := "answers" },
    { id := "n1", source := "a1", target := "act1", type := "next_step" },
    { id := "n2", source := "a1", target := "ghost", type := "next_step" }]⟩

/-- The node the create path of `find_or_create_question` constructs (the
same term as in the body, named for reuse in proofs). -/
def mkQuestionNode (text : String) (intent_id : Option String) (newId : String)
    (now : ℚ) : Node :=
  { id := newId, type := "question", label := takeStr text 60, text := text,
    intent_id := intent_id, metadata := [("created_at", .num now)] }

/-- A lone question node, for resolver failure scenarios. -/
def qaQ : Node :=
  { id := "q1", type := "question", label := "Do you ship?", text := "Do you ship?" }

/-- A store with a question and no `answers` edge. -/
def qaG1 : MemoryGraph := ⟨[qaQ], []⟩

/-- An `answers` edge whose target node does not exist. -/
def qaDanglingE : Edge := { id := "e1", source := "q1", target := "ghost", type := "answers" }

/-- A store whose only `answers` edge dangles. -/
def qaG2 : MemoryGraph := ⟨[qaQ], [qaDanglingE]⟩

/-- The question node of `c5WitGraph`. -/
def c5WQ : Node :=
  { id := "q1", type := "question", label := "Do you ship?", text := "Do you ship?" }

/-- The answer node of `c5WitGraph`. -/
def c5WA : Node := { id := "a1", type := "answer", label := "Yes", text := "Yes" }

/-- The `answers` edge of `c5WitGraph`. -/
def c5WE : Edge := { id := "e1", source := "q1", target := "a1", type := "answers" }

/-! ### Shared lemmas -/

theorem find?_id_none_of_not_mem {l : List Node} {i : String}
    (h : i ∉ l.map (fun n => n.id)) : l.find? (fun n => n.id == i) = none := by
  rw [List.find?_eq_none]
  intro x hx
  simp only [beq_iff_eq]
  intro hxi
  exact h (by simpa [hxi] using List.mem_map_of_mem (fun n => n.id) hx)

theorem find?_edge_id_none_of_not_mem {l : List Edge} {i : String}
    (h : i ∉ l.map (fun e => e.id)) : l.find? (fun e => e.id == i) = none := by
  rw [List.find?_eq_none]
  intro x hx
  simp only [beq_iff_eq]
  intro hxi
  exact h (by simpa [hxi] using List.mem_map_of_mem (fun e => e.id) hx)

theorem add_node_fresh {g : MemoryGraph} {node : Node} (h : node.id ∉ nodeIds g) :
    g.add_node node = (node, ⟨g.nodes ++ [node], g.edges⟩) := by
  rw [MemoryGraph.add_node, find?_id_none_of_not_mem h]

theorem uid_injective : Function.Injective uid := by
  intro a b h
  have hlen : (uid a).data.length = (uid b).data.length := by rw [h]
  simpa [uid] using hlen

theorem find?_updateFirst_self {l : List α} {p : α → Bool} {f : α → α} {e : α}
    (h : l.find? p = some e) (hf : p (f e) = true) :
    (updateFirst p f l).find? p = some (f e) := by
  induction l with
  | nil => simp at h
  | cons a t ih =>
    by_cases hpa : p a = true
    · rw [List.find?_cons_of_pos _ hpa] at h
      injection h with h
      subst h
      rw [updateFirst, if_pos hpa, List.find?_cons_of_pos _ hf]
    · rw [List.find?_cons_of_neg _ (by simpa using hpa)] at h
      rw [updateFirst, if_neg (by simpa using hpa),
        List.find?_cons_of_neg _ (by simpa using hpa)]
      exact ih h

theorem metaLookup_metaSet (m : Metadata) (k : String) (v : MetaValue) :
    metaLookup (metaSet m k v) k = some v := by
  rw [metaSet]
  by_cases h : (m.find? (fun p => p.1 == k)).isSome
  · rw [if_pos h]
    obtain ⟨e, he⟩ := Option.isSome_iff_exists.mp h
    have hk : (e.1 == k) = true := by simpa using List.find?_some he
    have := find?_updateFirst_self (f := fun p => (p.1, v)) he (by simpa using hk)
    rw [metaLookup, this]
    rfl
  · rw [if_neg h]
    rw [metaLookup, List.find?_append, Option.not_isSome_iff_eq_none.mp h]
    simp

theorem updateFirst_append_none {p : α → Bool} {f : α → α} {l₁ l₂ : List α}
    (h : ∀ a ∈ l₁, p a = false) :
    updateFirst p f (l₁ ++ l₂) = l₁ ++ updateFirst p f l₂ := by
  induction l₁ with
  | nil => simp
  | cons a t ih =>
    rw [List.cons_append, updateFirst, if_neg (by simp [h a (by simp)]),
      ih (fun x hx => h x (by simp [hx])), List.cons_append]

theorem updateFirst_comp {p : α → Bool} {f f' : α → α} (hf : ∀ a, p a = true → p (f a) = true) :
    ∀ l : List α, updateFirst p f' (updateFirst p f l) = updateFirst p (fun a => f' (f a)) l := by
  intro l
  induction l with
  | nil => rfl
  | cons a t ih =>
    by_cases hpa : p a = true
    · rw [updateFirst, if_pos hpa, updateFirst, if_pos (hf a hpa), updateFirst, if_pos hpa]
    · rw [updateFirst, if_neg hpa, updateFirst, if_neg hpa, updateFirst, if_neg hpa, ih]

theorem metaSet_metaSet (m : Metadata) (k : String) (v w : MetaValue) :
    metaSet (metaSet m k v) k w = metaSet m k w := by
  by_cases h : (m.find? (fun p => p.1 == k)).isSome
  · obtain ⟨e, he⟩ := Option.isSome_iff_exists.mp h
    have hk : (e.1 == k) = true := by simpa using List.find?_some he
    have h2 : ((metaSet m k v).find? (fun p => p.1 == k)).isSome := by
      rw [metaSet, if_pos h, find?_updateFirst_self (f := fun p => (p.1, v)) he (by simpa using hk)]
      rfl
    rw [metaSet, if_pos h2, metaSet, if_pos h, metaSet, if_pos h,
      updateFirst_comp (by intro a ha; simpa using ha)]
  · have hnone : m.find? (fun p => p.1 == k) = none := Option.not_isSome_iff_eq_none.mp h
    have hfa : ∀ a ∈ m, ((a.1 : String) == k) = false := by
      intro a ha
      simpa using List.find?_eq_none.mp hnone a ha
    have hmv : metaSet m k v = m ++ [(k, v)] := by rw [metaSet, if_neg h]
    have hsome : ((m ++ [(k, v)]).find? (fun p => p.1 == k)).isSome = true := by
      rw [List.find?_append, hnone]
      simp
    rw [hmv, metaSet, if_pos hsome, updateFirst_append_none (fun a ha => by simpa using hfa a ha),
      updateFirst, if_pos (by simp), metaSet, if_neg h]

theorem find?_middle {pre post : List α} {p : α → Bool} {e : α}
    (hpre : ∀ a ∈ pre, p a = false) (he : p e = true) :
    (pre ++ e :: post).find? p = some e := by
  rw [List.find?_append, List.find?_eq_none.mpr (fun x hx => by simp [hpre x hx]),
    List.find?_cons_of_pos _ he]
  rfl

theorem updateFirst_middle {pre post : List α} {p : α → Bool} {f : α → α} {e : α}
    (hpre : ∀ a ∈ pre, p a = false) (he : p e = true) :
    updateFirst p f (pre ++ e :: post) = pre ++ f e :: post := by
  rw [updateFirst_append_none hpre, updateFirst, if_pos he]

theorem mkRat_natCast_self {m : ℕ} (hm : m ≠ 0) : mkRat (m : ℤ) m = 1 := by
  rw [Rat.mkRat_eq_divInt, Rat.divInt_eq_div]
  push_cast
  exact div_self (by exact_mod_cast hm)

theorem cast_maxToNat_real (v : ℤ) : (((max 1 v).toNat : ℕ) : ℝ) = max 1 (v : ℝ) := by
  have h0 : (0 : ℤ) ≤ max 1 v := le_trans zero_le_one (le_max_left 1 v)
  have h1 : (((max 1 v).toNat : ℕ) : ℝ) = (((max 1 v : ℤ)) : ℝ) := by
    rw [← Int.cast_natCast, Int.toNat_of_nonneg h0]
  rw [h1]
  push_cast
  rfl

theorem sig_val_score (d v : ℤ) :
    (ConfVal.sig (mkRat d (max 1 v).toNat)).val =
      1 / (1 + Real.exp (-(3 * ((d : ℝ) / max 1 (v : ℝ))))) := by
  have hb : (((max 1 v).toNat : ℕ) : ℝ) ≠ 0 := by
    rw [cast_maxToNat_real]
    exact ne_of_gt (lt_of_lt_of_le one_pos (le_max_left 1 (v : ℝ)))
  show sigmoid (3 * ((mkRat d (max 1 v).toNat : ℚ) : ℝ)) = _
  rw [sigmoid]
  rw [show ((mkRat d (max 1 v).toNat : ℚ) : ℝ) = (d : ℝ) / (((max 1 v).toNat : ℕ) : ℝ) from
    Rat.cast_mkRat_of_ne_zero d hb]
  rw [cast_maxToNat_real]

theorem sig_one_val : (ConfVal.sig 1).val = sigmoid 3 := by
  show sigmoid (3 * ((1 : ℚ) : ℝ)) = sigmoid 3
  norm_num

theorem sig_zero_val : (ConfVal.sig 0).val = 1 / 2 := by
  show sigmoid (3 * ((0 : ℚ) : ℝ)) = 1 / 2
  norm_num [sigmoid, Real.exp_zero]

theorem sigmoid_three_gt_half : (1 : ℝ) / 2 < sigmoid 3 := by
  have hx : Real.exp (-3) < 1 := Real.exp_lt_one_iff.mpr (by norm_num)
  have h1 : (0 : ℝ) < 1 + Real.exp (-3) := by positivity
  rw [sigmoid, lt_div_iff₀ h1]
  linarith

theorem sigmoid_three_lt_one : sigmoid 3 < 1 := by
  have h0 : (0 : ℝ) < Real.exp (-3) := Real.exp_pos _
  have h1 : (0 : ℝ) < 1 + Real.exp (-3) := by positivity
  rw [sigmoid, div_lt_one h1]
  linarith

theorem apply_plus_step {g : MemoryGraph} {i : String} {pre post : List Edge} {e : Edge}
    {m1 : Metadata} {k : ℕ}
    (hg : g.edges = pre ++ plusEdge e m1 k :: post) (hid : e.id = i)
    (hpre : ∀ x ∈ pre, (x.id == i) = false) :
    g.apply_edge_feedback i 1 = .ok ⟨g.nodes, pre ++ plusEdge e m1 (k + 1) :: post⟩ := by
  have hpk : ((plusEdge e m1 k).id == i) = true := by simp [plusEdge, hid]
  have hfind : g.edges.find? (fun x => x.id == i) = some (plusEdge e m1 k) := by
    rw [hg]
    exact find?_middle hpre hpk
  have hsd : fbSetdefault (plusEdge e m1 k).metadata =
      .ok (⟨(k : ℤ), 0, (k : ℤ)⟩, metaSet m1 "feedback" (.fb ⟨(k : ℤ), 0, (k : ℤ)⟩)) := by
    rw [show (plusEdge e m1 k).metadata = metaSet m1 "feedback" (.fb ⟨(k : ℤ), 0, (k : ℤ)⟩)
      from rfl, fbSetdefault, metaLookup_metaSet]
  simp only [MemoryGraph.apply_edge_feedback, hfind, hsd]
  rw [hg, updateFirst_middle hpre hpk]
  norm_num [plusEdge, metaSet_metaSet]

theorem apply_plus_iterate {i : String} (n : ℕ) :
    ∀ (g : MemoryGraph) (pre post : List Edge) (e : Edge) (m1 : Metadata) (k : ℕ),
    g.edges = pre ++ plusEdge e m1 k :: post → e.id = i →
    (∀ x ∈ pre, (x.id == i) = false) →
    applyPlusN i n g = .ok ⟨g.nodes, pre ++ plusEdge e m1 (k + n) :: post⟩ := by
  induction n with
  | zero =>
    intro g pre post e m1 k hg hid hpre
    rw [applyPlusN]
    cases g
    simp at hg
    simp [hg]
  | succ n ih =>
    intro g pre post e m1 k hg hid hpre
    rw [applyPlusN, apply_plus_step hg hid hpre]
    show applyPlusN i n ⟨g.nodes, pre ++ plusEdge e m1 (k + 1) :: post⟩ = _
    rw [ih ⟨g.nodes, pre ++ plusEdge e m1 (k + 1) :: post⟩ pre post e m1 (k + 1) rfl hid hpre,
      show k + 1 + n = k + (n + 1) from by omega]

theorem apply_plus_first {g : MemoryGraph} {i : String} {pre post : List Edge} {e : Edge}
    (hg : g.edges = pre ++ e :: post) (hid : e.id = i)
    (hpre : ∀ x ∈ pre, (x.id == i) = false)
    (hm : metaLookup e.metadata "feedback" = none) :
    g.apply_edge_feedback i 1 =
      .ok ⟨g.nodes,
        pre ++ plusEdge e (e.metadata ++ [("feedback", .fb FbStats.zero)]) 1 :: post⟩ := by
  have hfind : g.edges.find? (fun x => x.id == i) = some e := by
    rw [hg]
    exact find?_middle hpre (by simp [hid])
  have hsd : fbSetdefault e.metadata =
      .ok (FbStats.zero, e.metadata ++ [("feedback", .fb FbStats.zero)]) := by
    rw [fbSetdefault, hm]
  simp only [MemoryGraph.apply_edge_feedback, hfind, hsd]
  rw [hg, updateFirst_middle hpre (by simp [hid])]
  norm_num [plusEdge, FbStats.zero]

/-! ### C1 -/

/-- C1: the claim fails on the shipped code, which is a slip: on the agent
turn `build_session_graph` adds the `answers` edge and then accesses the
attribute `find_or_create_Clue`, which the `MemoryGraph` class does not
define (it defines `find_or_create_clue`); the request aborts with an
`AttributeError`, leaving one `answers` edge, no clue node and no
`describes_context` edge, and never reaching the trailing turn.  With the
attribute resolving (the evident intent: the inference helper and the
lowercase method both exist), the scenario yields exactly the claimed
graph: one `answers` edge, a clue labelled "General offering" linked to
the hours question by `describes_context`, and no edge touching the
trailing unanswered question. -/
theorem claim1_transcript_topic_link :
    c1Run = .error (.attributeError "find_or_create_Clue", exceptGraph c1Run) ∧
    countEdges (exceptGraph c1Run) "answers" = 1 ∧
    countEdges (exceptGraph c1Run) "describes_context" = 0 ∧
    countNodes (exceptGraph c1Run) "clue" = 0 ∧
    c1FixedRun = .ok (exceptGraph c1FixedRun) ∧
    countEdges (exceptGraph c1FixedRun) "answers" = 1 ∧
    ((exceptGraph c1FixedRun).nodes.find? (fun n => n.type == "clue")).map
      (fun n => n.label) = some "General offering" ∧
    ((exceptGraph c1FixedRun).edges.find? (fun e => e.type == "describes_context")).map
      (fun e => (e.source, e.target)) = some (uid 3, uid 0) ∧
    ((exceptGraph c1FixedRun).nodes.find? (fun n => n.id == uid 0)).map
      (fun n => (n.type, n.text)) = some ("question", "What are your hours?") ∧
    ((exceptGraph c1FixedRun).nodes.find? (fun n => normText n.text == "unanswered?")).map
      (fun n => n.id) = some (uid 5) ∧
    edgesTouching (exceptGraph c1FixedRun) (uid 5) = 0 := by
  refine ⟨by decide, by decide, by decide, by decide, by decide, by decide, by decide,
    by decide, by decide, by decide, by decide⟩

/-! ### C9 -/

/-- C9: the claim fails on the shipped code, which is a slip: the
answer-correction endpoint names its target `answer_node` but never checks
the edge type or the node kind, so invoked with the id of a
`describes_context` edge it rewrites the text and label of the target
question node in place. -/
theorem claim9_update_answer_mutates_question :
    (update_answer c9Graph "ed1" "hacked").2 = .ok () ∧
    (c9Graph.nodes.find? (fun n => n.id == "q1")).map (fun n => (n.type, n.text, n.label)) =
      some ("question", "What are your hours?", "What are your hours?") ∧
    ((update_answer c9Graph "ed1" "hacked").1.nodes.find? (fun n => n.id == "q1")).map
      (fun n => (n.type, n.text, n.label)) = some ("question", "hacked", "hacked") := by
  refine ⟨by decide, by decide, by decide⟩

/-! ### C2 -/

/-- C2: for every edge in the store and feedback value in plus/minus one,
a successful `apply_edge_feedback` bumps the pos or neg counter and the
views counter (`bumpStats`) and stores as confidence exactly
`1 / (1 + e^(-3 * score))` with `score = (pos - neg) / max(1, views)`
over the updated counters; in particular one `+1` followed by one `-1`
lands on score 0 and confidence exactly one half. -/
theorem claim2_feedback_update :
    (∀ (g : MemoryGraph) (i : String) (v : Int) (e : Edge) (st : FbStats) (m1 : Metadata),
      g.edges.find? (fun x => x.id == i) = some e →
      (v = 1 ∨ v = -1) →
      fbSetdefault e.metadata = .ok (st, m1) →
      ∃ g', g.apply_edge_feedback i v = .ok g' ∧
        graphEdgeFb g' i = some (.fb (bumpStats st v)) ∧
        graphEdgeConf g' i = some (.sig (mkRat ((bumpStats st v).pos - (bumpStats st v).neg)
          (max 1 (bumpStats st v).views).toNat)) ∧
        (ConfVal.sig (mkRat ((bumpStats st v).pos - (bumpStats st v).neg)
            (max 1 (bumpStats st v).views).toNat)).val =
          1 / (1 + Real.exp (-(3 * ((((bumpStats st v).pos - (bumpStats st v).neg : ℤ) : ℝ) /
            max 1 (((bumpStats st v).views : ℤ) : ℝ)))))) ∧
    (fbGraph.apply_edge_feedback "e1" 1 = .ok fbGraph1 ∧
     fbGraph1.apply_edge_feedback "e1" (-1) = .ok fbGraphDown ∧
     graphEdgeConf fbGraphDown "e1" = some (.sig 0) ∧
     (ConfVal.sig 0).val = 1 / 2) := by
  constructor
  · intro g i v e st m1 hfind hv hsd
    have hid : (e.id == i) = true := by simpa using (List.find?_some hfind)
    set e1 : Edge :=
      { e with
        metadata := metaSet m1 "feedback" (.fb (bumpStats st v)),
        confidence := .sig (mkRat ((bumpStats st v).pos - (bumpStats st v).neg)
          (max 1 (bumpStats st v).views).toNat) } with he1
    have happly : g.apply_edge_feedback i v =
        .ok { g with edges := updateFirst (fun x => x.id == i) (fun _ => e1) g.edges } := by
      rw [he1]
      rcases hv with rfl | rfl <;>
        simp only [MemoryGraph.apply_edge_feedback, hfind, hsd] <;>
        norm_num [bumpStats]
    have hfu : (updateFirst (fun x => x.id == i) (fun _ => e1) g.edges).find?
        (fun x => x.id == i) = some e1 :=
      find?_updateFirst_self hfind (by simpa [he1] using hid)
    refine ⟨_, happly, ?_, ?_, sig_val_score _ _⟩
    · rw [graphEdgeFb]
      show ((updateFirst (fun x => x.id == i) (fun _ => e1) g.edges).find?
        (fun x => x.id == i)).bind (fun e => metaLookup e.metadata "feedback") = _
      rw [hfu]
      simp [he1, metaLookup_metaSet]
    · rw [graphEdgeConf]
      show ((updateFirst (fun x => x.id == i) (fun _ => e1) g.edges).find?
        (fun x => x.id == i)).map (fun e => e.confidence) = _
      rw [hfu, he1]
      rfl
  · exact ⟨by decide, by decide, by decide, sig_zero_val⟩

/-- Witness for C2 at a concrete input: the single fresh edge of `fbGraph`
given one `+1`. -/
theorem claim2_feedback_update_witness :
    fbGraph.edges.find? (fun x => x.id == "e1") = some fbE ∧
    fbSetdefault fbE.metadata = .ok (FbStats.zero, [("feedback", .fb FbStats.zero)]) ∧
    (∃ g', fbGraph.apply_edge_feedback "e1" 1 = .ok g' ∧
      graphEdgeFb g' "e1" = some (.fb (bumpStats FbStats.zero 1)) ∧
      graphEdgeConf g' "e1" = some (.sig (mkRat
        ((bumpStats FbStats.zero 1).pos - (bumpStats FbStats.zero 1).neg)
        (max 1 (bumpStats FbStats.zero 1).views).toNat)) ∧
      (ConfVal.sig (mkRat ((bumpStats FbStats.zero 1).pos - (bumpStats FbStats.zero 1).neg)
          (max 1 (bumpStats FbStats.zero 1).views).toNat)).val =
        1 / (1 + Real.exp (-(3 *
          ((((bumpStats FbStats.zero 1).pos - (bumpStats FbStats.zero 1).neg : ℤ) : ℝ) /
            max 1 (((bumpStats FbStats.zero 1).views : ℤ) : ℝ)))))) :=
  ⟨by decide, by decide,
    claim2_feedback_update.1 fbGraph "e1" 1 fbE FbStats.zero
      [("feedback", .fb FbStats.zero)] (by decide) (Or.inl rfl) (by decide)⟩

/-! ### C3 -/

/-- C3 counterexample: two successive `+1` feedbacks on a fresh edge leave
the stored confidence at the same value `sigmoid (3 * 1)` both times
(score is capped at `views / views = 1`), so the second call does not
strictly increase it. -/
theorem claim3_counterexample :
    fbGraph.apply_edge_feedback "e1" 1 = .ok fbGraph1 ∧
    fbGraph1.apply_edge_feedback "e1" 1 = .ok fbGraph2 ∧
    graphEdgeConf fbGraph1 "e1" = some (.sig 1) ∧
    graphEdgeConf fbGraph2 "e1" = some (.sig 1) ∧
    ¬ (ConfVal.sig 1).val < (ConfVal.sig 1).val :=
  ⟨by decide, by decide, by decide, by decide, lt_irrefl _⟩

/-- C3 amended: in a `+1`-only feedback sequence on an edge with no prior
feedback, every call from the first onward stores the same confidence,
namely `sigmoid 3` (the score is capped at `views / views = 1`): the value
lies strictly between one half and one, so the sequence is not strictly
increasing and does not approach one — it is constant after the first
call. -/
theorem claim3_plus_only_confidence_constant : ∀ (g : MemoryGraph) (i : String)
    (pre post : List Edge) (e : Edge) (n : ℕ),
    g.edges = pre ++ e :: post → e.id = i → (∀ x ∈ pre, (x.id == i) = false) →
    metaLookup e.metadata "feedback" = none → 1 ≤ n →
    ∃ gn, applyPlusN i n g = .ok gn ∧
      graphEdgeConf gn i = some (.sig 1) ∧
      (ConfVal.sig 1).val = sigmoid 3 ∧
      (1 : ℝ) / 2 < (ConfVal.sig 1).val ∧ (ConfVal.sig 1).val < 1 := by
  intro g i pre post e n hg hid hpre hm hn
  obtain ⟨m, rfl⟩ : ∃ m, n = m + 1 := ⟨n - 1, by omega⟩
  have hstep := apply_plus_first hg hid hpre hm
  have hiter := apply_plus_iterate m ⟨g.nodes, pre ++
      plusEdge e (e.metadata ++ [("feedback", .fb FbStats.zero)]) 1 :: post⟩ pre post e
      (e.metadata ++ [("feedback", .fb FbStats.zero)]) 1 rfl hid hpre
  have hrun : applyPlusN i (m + 1) g = .ok ⟨g.nodes, pre ++
      plusEdge e (e.metadata ++ [("feedback", .fb FbStats.zero)]) (1 + m) :: post⟩ := by
    rw [applyPlusN, hstep]
    exact hiter
  have hconf : (plusEdge e (e.metadata ++ [("feedback", .fb FbStats.zero)]) (1 + m)).confidence =
      ConfVal.sig 1 := by
    show ConfVal.sig (mkRat ((1 + m : ℕ) : ℤ) (max 1 ((1 + m : ℕ) : ℤ)).toNat) = _
    have hmax : (max 1 ((1 + m : ℕ) : ℤ)).toNat = 1 + m := by omega
    rw [hmax, mkRat_natCast_self (by omega)]
  refine ⟨_, hrun, ?_, sig_one_val, ?_, ?_⟩
  · rw [graphEdgeConf]
    show ((pre ++ plusEdge e (e.metadata ++ [("feedback", .fb FbStats.zero)]) (1 + m) ::
      post).find? (fun x => x.id == i)).map (fun x => x.confidence) = _
    rw [find?_middle hpre (by simp [plusEdge, hid])]
    simp [hconf]
  · rw [sig_one_val]
    exact sigmoid_three_gt_half
  · rw [sig_one_val]
    exact sigmoid_three_lt_one

/-- Witness for the amended C3 at a concrete input: two `+1` feedbacks on
the single fresh edge of `fbGraph`. -/
theorem claim3_plus_only_confidence_constant_witness :
    fbGraph.edges = [] ++ fbE :: [] ∧ fbE.id = "e1" ∧
    metaLookup fbE.metadata "feedback" = none ∧
    (∃ gn, applyPlusN "e1" 2 fbGraph = .ok gn ∧
      graphEdgeConf gn "e1" = some (.sig 1) ∧
      (ConfVal.sig 1).val = sigmoid 3 ∧
      (1 : ℝ) / 2 < (ConfVal.sig 1).val ∧ (ConfVal.sig 1).val < 1) :=
  ⟨rfl, rfl, by decide,
    claim3_plus_only_confidence_constant fbGraph "e1" [] [] fbE 2 rfl rfl
      (by simp) (by decide) (by decide)⟩

/-! ### C5 -/

/-- C5 counterexample: the question `q1` has an `answers` edge with an
existing target (`e2`), yet resolution fails with "Answer node missing"
because the first `answers` edge in store iteration order (`e1`) dangles —
the resolver does not search on for an edge with an existing target. -/
theorem claim5_counterexample :
    (c5Graph.edges.find? (fun e => e.type == "answers" && e.source == "q1" &&
        (c5Graph.nodes.find? (fun n => n.id == e.target)).isSome)).isSome = true ∧
    (qa_answer c5Graph (fun _ => some "q1") "Do you ship?").answer = none ∧
    (qa_answer c5Graph (fun _ => some "q1") "Do you ship?").reason =
      some "Answer node missing" := by
  refine ⟨by decide, by decide, by decide⟩

theorem add_edge_fresh {g : MemoryGraph} {edge : Edge} (h : edge.id ∉ edgeIds g) :
    g.add_edge edge = (edge, ⟨g.nodes, g.edges ++ [edge]⟩) := by
  rw [MemoryGraph.add_edge, find?_edge_id_none_of_not_mem h]

theorem add_node_mono {g : MemoryGraph} {node n : Node} (h : n ∈ g.nodes) :
    n ∈ (g.add_node node).2.nodes := by
  rw [MemoryGraph.add_node]
  cases g.nodes.find? (fun x => x.id == node.id) with
  | some m => exact h
  | none => exact List.mem_append_left _ h

theorem add_edge_nodes (g : MemoryGraph) (edge : Edge) : (g.add_edge edge).2.nodes = g.nodes := by
  rw [MemoryGraph.add_edge]
  cases g.edges.find? (fun x => x.id == edge.id) <;> rfl

theorem add_edge_nodeIds (g : MemoryGraph) (edge : Edge) :
    nodeIds (g.add_edge edge).2 = nodeIds g := by
  rw [nodeIds, add_edge_nodes]
  rfl

theorem foc_question_mono {g : MemoryGraph} {text : String} {intent : Option String}
    {newId : String} {now : ℚ} {n : Node} (h : n ∈ g.nodes) :
    n ∈ (g.find_or_create_question text intent newId now).2.nodes := by
  rw [MemoryGraph.find_or_create_question]
  cases g.nodes.find? (fun x => x.type == "question" && normText x.text == normText text) with
  | some m => exact h
  | none => exact add_node_mono h

theorem foc_answer_mono {g : MemoryGraph} {text : String} {intent : Option String}
    {newId : String} {now : ℚ} {n : Node} (h : n ∈ g.nodes) :
    n ∈ (g.find_or_create_answer text intent newId now).2.nodes := by
  rw [MemoryGraph.find_or_create_answer]
  cases g.nodes.find? (fun x => x.type == "answer" && normText x.text == normText text) with
  | some m => exact h
  | none => exact add_node_mono h

theorem add_node_nodeIds {g : MemoryGraph} {node : Node} :
    ∀ i ∈ nodeIds (g.add_node node).2, i ∈ nodeIds g ∨ i = node.id := by
  intro i hi
  rw [MemoryGraph.add_node] at hi
  cases hf : g.nodes.find? (fun x => x.id == node.id) with
  | some m =>
    rw [hf] at hi
    exact Or.inl hi
  | none =>
    rw [hf] at hi
    rw [nodeIds] at hi
    simp only [List.map_append, List.mem_append] at hi
    rcases hi with hi | hi
    · exact Or.inl hi
    · simp only [List.map_cons, List.map_nil, List.mem_singleton] at hi
      exact Or.inr hi

theorem foc_question_nodeIds {g : MemoryGraph} {text : String} {intent : Option String}
    {newId : String} {now : ℚ} :
    ∀ i ∈ nodeIds (g.find_or_create_question text intent newId now).2,
      i ∈ nodeIds g ∨ i = newId := by
  intro i hi
  rw [MemoryGraph.find_or_create_question] at hi
  cases hf : g.nodes.find? (fun x => x.type == "question" &&
      normText x.text == normText text) with
  | some m =>
    rw [hf] at hi
    exact Or.inl hi
  | none =>
    rw [hf] at hi
    exact add_node_nodeIds i hi

theorem foc_answer_nodeIds {g : MemoryGraph} {text : String} {intent : Option String}
    {newId : String} {now : ℚ} :
    ∀ i ∈ nodeIds (g.find_or_create_answer text intent newId now).2,
      i ∈ nodeIds g ∨ i = newId := by
  intro i hi
  rw [MemoryGraph.find_or_create_answer] at hi
  cases hf : g.nodes.find? (fun x => x.type == "answer" &&
      normText x.text == normText text) with
  | some m =>
    rw [hf] at hi
    exact Or.inl hi
  | none =>
    rw [hf] at hi
    exact add_node_nodeIds i hi

theorem bgfs_go_mono (intent : String) (ids : ℕ → String) (now : ℚ) :
    ∀ (ts : List Turn) (g : MemoryGraph) (pending : Option Node) (k : ℕ) (n : Node),
    n ∈ g.nodes → n ∈ (build_graph_from_session_go intent ids now g pending k ts).nodes := by
  intro ts
  induction ts with
  | nil =>
    intro g pending k n h
    simpa [build_graph_from_session_go] using h
  | cons t rest ih =>
    intro g pending k n h
    simp only [build_graph_from_session_go]
    by_cases h1 : trimStr t.text = ""
    · rw [if_pos h1]
      exact ih g pending k n h
    · rw [if_neg h1]
      by_cases h2 : t.role = "user"
      · rw [if_pos h2]
        exact ih _ _ _ n (foc_question_mono h)
      · rw [if_neg h2]
        by_cases h3 : t.role = "agent"
        · rw [if_pos h3]
          cases pending with
          | none => exact ih g none k n h
          | some q =>
            apply ih
            rw [add_edge_nodes]
            exact foc_answer_mono h
        · rw [if_neg h3]
          exact ih g pending k n h

theorem bgfs_go_question (intent : String) (ids : ℕ → String) (now : ℚ)
    (hinj : Function.Injective ids) :
    ∀ (ts : List Turn) (g : MemoryGraph) (pending : Option Node) (k : ℕ),
    (∀ j, k ≤ j → ids j ∉ nodeIds g) →
    ∀ t ∈ ts, t.role = "user" → trimStr t.text ≠ "" →
    ∃ n ∈ (build_graph_from_session_go intent ids now g pending k ts).nodes,
      n.type = "question" ∧ normText n.text = normText (trimStr t.text) := by
  intro ts
  induction ts with
  | nil =>
    intro g pending k hfresh t ht
    exact absurd ht (List.not_mem_nil t)
  | cons t' rest ih =>
    intro g pending k hfresh t ht hrole htext
    rcases List.mem_cons.mp ht with rfl | htrest
    · simp only [build_graph_from_session_go]
      rw [if_neg htext, if_pos hrole]
      cases hf : g.nodes.find? (fun x => x.type == "question" &&
          normText x.text == normText (trimStr t.text)) with
      | some m =>
        have hm : m ∈ g.nodes := List.mem_of_find?_eq_some hf
        have hprops : m.type = "question" ∧ normText m.text = normText (trimStr t.text) := by
          simpa using List.find?_some hf
        have hfoc : g.find_or_create_question (trimStr t.text) intent (ids k) now = (m, g) := by
          rw [MemoryGraph.find_or_create_question, hf]
        rw [hfoc]
        exact ⟨m, bgfs_go_mono intent ids now rest g (some m) (k + 1) m hm, hprops⟩
      | none =>
        have hfoc : g.find_or_create_question (trimStr t.text) intent (ids k) now =
            (mkQuestionNode (trimStr t.text) intent (ids k) now,
             ⟨g.nodes ++ [mkQuestionNode (trimStr t.text) intent (ids k) now], g.edges⟩) := by
          rw [MemoryGraph.find_or_create_question, hf]
          show g.add_node (mkQuestionNode (trimStr t.text) intent (ids k) now) = _
          exact add_node_fresh (hfresh k le_rfl)
        rw [hfoc]
        refine ⟨mkQuestionNode (trimStr t.text) intent (ids k) now,
          bgfs_go_mono intent ids now rest _ _ (k + 1) _ (List.mem_append_right _
            (List.mem_singleton_self _)), rfl, rfl⟩
    · simp only [build_graph_from_session_go]
      by_cases h1 : trimStr t'.text = ""
      · rw [if_pos h1]
        exact ih g pending k hfresh t htrest hrole htext
      · rw [if_neg h1]
        by_cases h2 : t'.role = "user"
        · rw [if_pos h2]
          apply ih _ _ (k + 1) _ t htrest hrole htext
          intro j hj hin
          rcases foc_question_nodeIds _ hin with hin | hin
          · exact hfresh j (by omega) hin
          · exact absurd (hinj hin) (by omega)
        · rw [if_neg h2]
          by_cases h3 : t'.role = "agent"
          · rw [if_pos h3]
            cases pending with
            | none => exact ih g none k hfresh t htrest hrole htext
            | some q =>
              apply ih _ _ (k + 2) _ t htrest hrole htext
              intro j hj hin
              rw [add_edge_nodeIds] at hin
              rcases foc_answer_nodeIds _ hin with hin | hin
              · exact hfresh j (by omega) hin
              · exact absurd (hinj hin) (by omega)
          · rw [if_neg h3]
            exact ih g pending k hfresh t htrest hrole htext

theorem load_nodes_fold : ∀ (rs : List NodeRec) (g : MemoryGraph),
    (rs.map (fun r => r.id)).Nodup → (∀ r ∈ rs, r.id ∉ nodeIds g) →
    rs.foldl (fun g r => (g.add_node (recToNode r)).2) g =
      ⟨g.nodes ++ rs.map recToNode, g.edges⟩ := by
  intro rs
  induction rs with
  | nil =>
    intro g _ _
    cases g
    simp
  | cons r rest ih =>
    intro g hnd hfresh
    rw [List.foldl_cons,
      add_node_fresh (show (recToNode r).id ∉ nodeIds g from hfresh r (by simp))]
    have hfresh2 : ∀ r' ∈ rest, r'.id ∉ nodeIds ⟨g.nodes ++ [recToNode r], g.edges⟩ := by
      intro r' hr'
      rw [nodeIds]
      simp only [List.map_append, List.mem_append]
      rintro (hin | hin)
      · exact hfresh r' (by simp [hr']) hin
      · have hne : r'.id ≠ r.id := by
          intro hEq
          have hmem : r.id ∈ rest.map (fun x => x.id) := by
            rw [← hEq]
            exact List.mem_map_of_mem _ hr'
          exact (List.nodup_cons.mp (by simpa using hnd)).1 hmem
        simp only [List.map_cons, List.map_nil, List.mem_singleton] at hin
        exact hne (by simpa using hin)
    rw [ih ⟨g.nodes ++ [recToNode r], g.edges⟩ (by simpa using (List.nodup_cons.mp
      (by simpa using hnd)).2) hfresh2]
    simp

theorem load_edges_fold : ∀ (rs : List EdgeRec) (g : MemoryGraph),
    (rs.map (fun r => r.id)).Nodup → (∀ r ∈ rs, r.id ∉ edgeIds g) →
    rs.foldl (fun g r => (g.add_edge (recToEdge r)).2) g =
      ⟨g.nodes, g.edges ++ rs.map recToEdge⟩ := by
  intro rs
  induction rs with
  | nil =>
    intro g _ _
    cases g
    simp
  | cons r rest ih =>
    intro g hnd hfresh
    rw [List.foldl_cons,
      add_edge_fresh (show (recToEdge r).id ∉ edgeIds g from hfresh r (by simp))]
    have hfresh2 : ∀ r' ∈ rest, r'.id ∉ edgeIds ⟨g.nodes, g.edges ++ [recToEdge r]⟩ := by
      intro r' hr'
      rw [edgeIds]
      simp only [List.map_append, List.mem_append]
      rintro (hin | hin)
      · exact hfresh r' (by simp [hr']) hin
      · have hne : r'.id ≠ r.id := by
          intro hEq
          have hmem : r.id ∈ rest.map (fun x => x.id) := by
            rw [← hEq]
            exact List.mem_map_of_mem _ hr'
          exact (List.nodup_cons.mp (by simpa using hnd)).1 hmem
        simp only [List.map_cons, List.map_nil, List.mem_singleton] at hin
        exact hne (by simpa using hin)
    rw [ih ⟨g.nodes, g.edges ++ [recToEdge r]⟩ (by simpa using (List.nodup_cons.mp
      (by simpa using hnd)).2) hfresh2]
    simp


/-! ### C4 -/

/-- C4: QA resolution never raises: each of the four failure cases — empty
input, a routed id unknown to the store, a question with no outgoing
`answers` edge, and an `answers` edge whose target is missing — returns a
normal response with no answer, confidence zero, no actions and its own
stable reason string, and the four reason strings are pairwise distinct. -/
theorem claim4_qa_soft_failures :
    (∀ (g : MemoryGraph) (route : String → Option String) (q : String),
      trimStr q = "" → qa_answer g route q = qaFail "Empty question") ∧
    (∀ (g : MemoryGraph) (route : String → Option String) (q qid : String),
      trimStr q ≠ "" → route (trimStr q) = some qid → qid ≠ "" →
      g.nodes.find? (fun n => n.id == qid) = none →
      qa_answer g route q = qaFail "No matching question node") ∧
    (∀ (g : MemoryGraph) (route : String → Option String) (q qid : String) (qn : Node),
      trimStr q ≠ "" → route (trimStr q) = some qid → qid ≠ "" →
      g.nodes.find? (fun n => n.id == qid) = some qn →
      g.edges.find? (fun e => e.type == "answers" && e.source == qn.id) = none →
      qaSoftFail (qa_answer g route q) "Question has no answer node") ∧
    (∀ (g : MemoryGraph) (route : String → Option String) (q qid : String) (qn : Node)
        (ae : Edge),
      trimStr q ≠ "" → route (trimStr q) = some qid → qid ≠ "" →
      g.nodes.find? (fun n => n.id == qid) = some qn →
      g.edges.find? (fun e => e.type == "answers" && e.source == qn.id) = some ae →
      g.nodes.find? (fun n => n.id == ae.target) = none →
      qaSoftFail (qa_answer g route q) "Answer node missing") ∧
    (∀ r : String, qaSoftFail (qaFail r) r) ∧
    (["Empty question", "No matching question node", "Question has no answer node",
        "Answer node missing"] : List String).Nodup ∧
    (ConfVal.lit 0).val = 0 := by
  refine ⟨?_, ?_, ?_, ?_, ?_, by decide, by show ((0 : ℚ) : ℝ) = 0; norm_num⟩
  · intro g route q h
    simp [qa_answer, h]
  · intro g route q qid h1 h2 h3 h4
    simp [qa_answer, h1, h2, h3, h4]
  · intro g route q qid qn h1 h2 h3 h4 h5
    simp [qa_answer, h1, h2, h3, h4, h5, qaSoftFail]
  · intro g route q qid qn ae h1 h2 h3 h4 h5 h6
    simp [qa_answer, h1, h2, h3, h4, h5, h6, qaSoftFail]
  · intro r
    simp [qaSoftFail, qaFail]

/-- Witness for C4: each failure case exercised on a concrete store. -/
theorem claim4_witness :
    qa_answer ⟨[], []⟩ (fun _ => none) "" = qaFail "Empty question" ∧
    qa_answer ⟨[], []⟩ (fun _ => some "zzz") "Hi?" = qaFail "No matching question node" ∧
    qaSoftFail (qa_answer qaG1 (fun _ => some "q1") "Hi?") "Question has no answer node" ∧
    qaSoftFail (qa_answer qaG2 (fun _ => some "q1") "Hi?") "Answer node missing" :=
  ⟨claim4_qa_soft_failures.1 ⟨[], []⟩ (fun _ => none) "" (by decide),
   claim4_qa_soft_failures.2.1 ⟨[], []⟩ (fun _ => some "zzz") "Hi?" "zzz" (by decide) rfl
     (by decide) (by decide),
   claim4_qa_soft_failures.2.2.1 qaG1 (fun _ => some "q1") "Hi?" "q1" qaQ (by decide) rfl
     (by decide) (by decide) (by decide),
   claim4_qa_soft_failures.2.2.2.1 qaG2 (fun _ => some "q1") "Hi?" "q1" qaQ qaDanglingE
     (by decide) rfl (by decide) (by decide) (by decide) (by decide)⟩


/-! ### C5 (amended) -/

/-- C5 amended: for every question node whose FIRST outgoing `answers`
edge in store iteration order has an existing target, resolution succeeds
with that edge: it returns the target answer text, that edge confidence,
and as actions exactly the `next_step` targets of the answer node that
exist in the store (dangling `next_step` edges are silently skipped). -/
theorem claim5_qa_success : ∀ (g : MemoryGraph) (route : String → Option String)
    (q qid : String) (qn : Node) (ae : Edge) (an : Node),
    trimStr q ≠ "" → route (trimStr q) = some qid → qid ≠ "" →
    g.nodes.find? (fun n => n.id == qid) = some qn →
    g.edges.find? (fun e => e.type == "answers" && e.source == qn.id) = some ae →
    g.nodes.find? (fun n => n.id == ae.target) = some an →
    (qa_answer g route q).answer = some an.text ∧
    (qa_answer g route q).confidence = ae.confidence ∧
    (qa_answer g route q).reason = none ∧
    (qa_answer g route q).matched_question_id = some qn.id ∧
    (∀ act, act ∈ (qa_answer g route q).actions ↔
      ∃ e' ∈ g.edges, e'.type = "next_step" ∧ e'.source = an.id ∧
        ∃ t, g.nodes.find? (fun n => n.id == e'.target) = some t ∧ act = qaActionOf t) := by
  intro g route q qid qn ae an h1 h2 h3 h4 h5 h6
  have hq : qa_answer g route q =
      { matched_question_id := some qn.id, matched_question := some qn.text,
        answer := some an.text, confidence := ae.confidence,
        actions := (g.edges.filter
            (fun e => e.type == "next_step" && e.source == an.id)).filterMap
          (fun e => (g.nodes.find? (fun n => n.id == e.target)).map qaActionOf),
        reason := none } := by
    simp [qa_answer, h1, h2, h3, h4, h5, h6]
  refine ⟨by rw [hq], by rw [hq], by rw [hq], by rw [hq], ?_⟩
  intro act
  rw [hq]
  simp only [List.mem_filterMap, List.mem_filter, Option.map_eq_some']
  constructor
  · rintro ⟨e', ⟨he'mem, he'p⟩, t, ht, hact⟩
    have hp : e'.type = "next_step" ∧ e'.source = an.id := by
      simpa using he'p
    exact ⟨e', he'mem, hp.1, hp.2, t, ht, hact.symm⟩
  · rintro ⟨e', he'mem, ht1, ht2, t, ht, hact⟩
    exact ⟨e', ⟨he'mem, by simp [ht1, ht2]⟩, t, ht, hact.symm⟩

/-- Witness for the amended C5: a store with one valid and one dangling
`next_step` edge. -/
theorem claim5_witness :
    (qa_answer c5WitGraph (fun _ => some "q1") "Do you ship?").answer = some c5WA.text ∧
    (qa_answer c5WitGraph (fun _ => some "q1") "Do you ship?").confidence = c5WE.confidence ∧
    (qa_answer c5WitGraph (fun _ => some "q1") "Do you ship?").reason = none ∧
    (qa_answer c5WitGraph (fun _ => some "q1") "Do you ship?").matched_question_id =
      some c5WQ.id ∧
    (∀ act, act ∈ (qa_answer c5WitGraph (fun _ => some "q1") "Do you ship?").actions ↔
      ∃ e' ∈ c5WitGraph.edges, e'.type = "next_step" ∧ e'.source = c5WA.id ∧
        ∃ t, c5WitGraph.nodes.find? (fun n => n.id == e'.target) = some t ∧
          act = qaActionOf t) :=
  claim5_qa_success c5WitGraph (fun _ => some "q1") "Do you ship?" "q1" c5WQ c5WE c5WA
    (by decide) rfl (by decide) (by decide) (by decide) (by decide)


/-! ### C6 -/

/-- C6: serializing a store (with the dict-backed unique ids) and
deserializing the snapshot reconstructs an identical store; a node record
missing metadata or stats loads with the empty mapping or zeroed counters,
and an edge record missing metadata loads with the empty mapping. -/
theorem claim6_round_trip :
    (∀ g : MemoryGraph, (nodeIds g).Nodup → (edgeIds g).Nodup →
      load_graph (save_graph g) = g) ∧
    (∀ r : NodeRec, r.metadata = none → (recToNode r).metadata = []) ∧
    (∀ r : NodeRec, r.stats = none → (recToNode r).stats = FbStats.zero) ∧
    (∀ r : EdgeRec, r.metadata = none → (recToEdge r).metadata = []) := by
  refine ⟨?_, ?_, ?_, ?_⟩
  · intro g hn he
    rw [load_graph, save_graph]
    have hmapn : (g.nodes.map nodeToRec).map (fun r => r.id) = nodeIds g := by
      rw [List.map_map]
      rfl
    have hmape : (g.edges.map edgeToRec).map (fun r => r.id) = edgeIds g := by
      rw [List.map_map]
      rfl
    have h1 : (g.nodes.map nodeToRec).foldl (fun (a : MemoryGraph) r =>
        (a.add_node (recToNode r)).2) (⟨[], []⟩ : MemoryGraph) =
        (⟨[] ++ (g.nodes.map nodeToRec).map recToNode, []⟩ : MemoryGraph) :=
      load_nodes_fold _ ⟨[], []⟩ (by rw [hmapn]; exact hn) (by intro r _; simp [nodeIds])
    rw [h1]
    have h2 : ((g.nodes.map nodeToRec).map recToNode) = g.nodes := by
      rw [List.map_map]
      have hcomp : (recToNode ∘ nodeToRec) = id := by
        funext n
        rfl
      rw [hcomp, List.map_id]
    rw [List.nil_append, h2]
    have h3 : (g.edges.map edgeToRec).foldl (fun (a : MemoryGraph) r =>
        (a.add_edge (recToEdge r)).2) (⟨g.nodes, []⟩ : MemoryGraph) =
        (⟨g.nodes, [] ++ (g.edges.map edgeToRec).map recToEdge⟩ : MemoryGraph) :=
      load_edges_fold _ ⟨g.nodes, []⟩ (by rw [hmape]; exact he) (by intro r _; simp [edgeIds])
    rw [h3]
    have h4 : ((g.edges.map edgeToRec).map recToEdge) = g.edges := by
      rw [List.map_map]
      have : (recToEdge ∘ edgeToRec) = id := by
        funext e
        rfl
      rw [this, List.map_id]
    rw [List.nil_append, h4]
  · intro r h
    rw [recToNode, h]
    rfl
  · intro r h
    rw [recToNode, h]
    rfl
  · intro r h
    rw [recToEdge, h]
    rfl

/-- Witness for C6 on a concrete store with three nodes and three edges. -/
theorem claim6_witness :
    (nodeIds c5WitGraph).Nodup ∧ (edgeIds c5WitGraph).Nodup ∧
    load_graph (save_graph c5WitGraph) = c5WitGraph :=
  ⟨by decide, by decide, claim6_round_trip.1 c5WitGraph (by decide) (by decide)⟩


/-! ### C7 -/

/-- C7: question creation is idempotent under normalization: a second call
with the same text and a third call with a trim/case variant return the
same node and leave the store unchanged, and the first call adds at most
one node and no edge. -/
theorem claim7_question_dedup : ∀ (g : MemoryGraph) (text variant : String)
    (intent : Option String) (id1 id2 id3 : String) (t1 t2 t3 : ℚ),
    id1 ∉ nodeIds g → normText variant = normText text →
    ∃ n1 g1, g.find_or_create_question text intent id1 t1 = (n1, g1) ∧
      g1.find_or_create_question text intent id2 t2 = (n1, g1) ∧
      g1.find_or_create_question variant intent id3 t3 = (n1, g1) ∧
      (g1.nodes = g.nodes ∨ g1.nodes = g.nodes ++ [n1]) ∧ g1.edges = g.edges := by
  intro g text variant intent id1 id2 id3 t1 t2 t3 hfresh hvar
  have hpred : (fun n : Node => n.type == "question" && normText n.text == normText variant) =
      (fun n : Node => n.type == "question" && normText n.text == normText text) := by
    funext n
    rw [hvar]
  cases hfind : g.nodes.find? (fun n => n.type == "question" &&
      normText n.text == normText text) with
  | some n =>
    refine ⟨n, g, ?_, ?_, ?_, Or.inl rfl, rfl⟩
    · rw [MemoryGraph.find_or_create_question, hfind]
    · rw [MemoryGraph.find_or_create_question, hfind]
    · rw [MemoryGraph.find_or_create_question, hpred, hfind]
  | none =>
    set node : Node :=
      { id := id1, type := "question", label := takeStr text 60, text := text,
        intent_id := intent, metadata := [("created_at", .num t1)] } with hnode
    have h1 : g.find_or_create_question text intent id1 t1 =
        (node, ⟨g.nodes ++ [node], g.edges⟩) := by
      rw [MemoryGraph.find_or_create_question, hfind, add_node_fresh hfresh]
    have hfind2 : (g.nodes ++ [node]).find? (fun n => n.type == "question" &&
        normText n.text == normText text) = some node := by
      rw [List.find?_append, hfind]
      simp [hnode]
    refine ⟨node, ⟨g.nodes ++ [node], g.edges⟩, h1, ?_, ?_, Or.inr rfl, rfl⟩
    · rw [MemoryGraph.find_or_create_question]
      show (match (g.nodes ++ [node]).find? (fun n => n.type == "question" &&
          normText n.text == normText text) with
        | some n => (n, (⟨g.nodes ++ [node], g.edges⟩ : MemoryGraph))
        | none => MemoryGraph.add_node ⟨g.nodes ++ [node], g.edges⟩
            { id := id2, type := "question", label := takeStr text 60, text := text,
              intent_id := intent, metadata := [("created_at", .num t2)] }) = _
      rw [hfind2]
    · rw [MemoryGraph.find_or_create_question, hpred]
      show (match (g.nodes ++ [node]).find? (fun n => n.type == "question" &&
          normText n.text == normText text) with
        | some n => (n, (⟨g.nodes ++ [node], g.edges⟩ : MemoryGraph))
        | none => MemoryGraph.add_node ⟨g.nodes ++ [node], g.edges⟩
            { id := id3, type := "question", label := takeStr variant 60, text := variant,
              intent_id := intent, metadata := [("created_at", .num t3)] }) = _
      rw [hfind2]

/-- Witness for C7 with the spec scenario texts. -/
theorem claim7_witness :
    "u" ∉ nodeIds ⟨[], []⟩ ∧ normText " do you SHIP? " = normText "Do you ship?" ∧
    (∃ n1 g1, (⟨[], []⟩ : MemoryGraph).find_or_create_question "Do you ship?"
        (some "sales-agent") "u" 0 = (n1, g1) ∧
      g1.find_or_create_question "Do you ship?" (some "sales-agent") "v" 0 = (n1, g1) ∧
      g1.find_or_create_question " do you SHIP? " (some "sales-agent") "w" 0 = (n1, g1) ∧
      (g1.nodes = (⟨[], []⟩ : MemoryGraph).nodes ∨
        g1.nodes = (⟨[], []⟩ : MemoryGraph).nodes ++ [n1]) ∧
      g1.edges = (⟨[], []⟩ : MemoryGraph).edges) :=
  ⟨by decide, by decide,
    claim7_question_dedup ⟨[], []⟩ "Do you ship?" " do you SHIP? " (some "sales-agent")
      "u" "v" "w" 0 0 0 (by decide) (by decide)⟩


/-! ### C8 -/

/-- C8: feedback on an unknown edge id fails with the `KeyError` of the
lookup, raised before any mutation, so the endpoint surfaces an explicit
failure and the store is returned unchanged. -/
theorem claim8_feedback_unknown_edge : ∀ (g : MemoryGraph) (i : String) (v : Int),
    i ∉ edgeIds g →
    post_feedback g i v = (g, .error (.keyError i)) ∧
    g.apply_edge_feedback i v = .error (.keyError i) := by
  intro g i v h
  have hfind : g.edges.find? (fun e => e.id == i) = none := find?_edge_id_none_of_not_mem h
  have happ : g.apply_edge_feedback i v = .error (.keyError i) := by
    rw [MemoryGraph.apply_edge_feedback, hfind]
  exact ⟨by rw [post_feedback, happ], happ⟩

/-- Witness for C8 on a store that lacks the requested edge id. -/
theorem claim8_witness :
    "missing" ∉ edgeIds fbGraph ∧
    (post_feedback fbGraph "missing" 1 = (fbGraph, .error (.keyError "missing")) ∧
     fbGraph.apply_edge_feedback "missing" 1 = .error (.keyError "missing")) :=
  ⟨by decide, claim8_feedback_unknown_edge fbGraph "missing" 1 (by decide)⟩


/-! ### C10 -/

/-- C10: every customer turn with non-empty text leaves a question node
with matching normalized text in the final store, even when that question
is overwritten as pending by a later customer turn before any agent
answer; in the concrete overwrite scenario the first question node is
still present and no edge touches it. -/
theorem claim10_dropped_question_persists :
    (∀ (intent : String) (ids : ℕ → String) (now : ℚ) (g : MemoryGraph) (ts : List Turn)
        (t : Turn),
      Function.Injective ids → (∀ j, ids j ∉ nodeIds g) →
      t ∈ ts → t.role = "user" → trimStr t.text ≠ "" →
      ∃ n ∈ (build_graph_from_session intent ids now g ts).nodes,
        n.type = "question" ∧ normText n.text = normText (trimStr t.text)) ∧
    ((c10Run.nodes.find? (fun n => n.id == uid 0)).map (fun n => (n.type, n.text)) =
      some ("question", "First unanswered?") ∧
     edgesTouching c10Run (uid 0) = 0) := by
  constructor
  · intro intent ids now g ts t hinj hfresh ht hrole htext
    exact bgfs_go_question intent ids now hinj ts g none 0 (fun j _ => hfresh j) t ht
      hrole htext
  · exact ⟨by decide, by decide⟩

/-- Witness for C10 on the overwrite transcript from the empty store. -/
theorem claim10_dropped_question_persists_witness :
    Function.Injective uid ∧ (∀ j, uid j ∉ nodeIds ⟨[], []⟩) ∧
    (∃ n ∈ (build_graph_from_session "sales-agent" uid 0 ⟨[], []⟩
        [⟨"user", "First unanswered?"⟩, ⟨"user", "Second?"⟩, ⟨"agent", "Answer."⟩]).nodes,
      n.type = "question" ∧ normText n.text = normText (trimStr "First unanswered?")) :=
  ⟨uid_injective, fun j => by simp [nodeIds],
    claim10_dropped_question_persists.1 "sales-agent" uid 0 ⟨[], []⟩ _
      ⟨"user", "First unanswered?"⟩ uid_injective (fun j => by simp [nodeIds])
      (List.mem_cons_self _ _) rfl (by decide)⟩


end NemaGraph
